import Mathlib

/-!
Shallow embedding of `custom_components/aquarea/__init__.py` (the Aquarea
Smart Cloud integration entry module): the process-wide registry
(`hass.data[DOMAIN]`), `initialize_data`, `async_setup_entry`,
`async_unload_entry`, `async_migrate_entry` and `AquareaBaseEntity`.

Python dictionaries keyed by strings are embedded as association lists with
Python's insertion semantics (replace in place when the key exists, append
otherwise).  The external collaborators (the `aioaquarea` client and the
host's platform machinery) are embedded as oracle inputs (`SetupEnv`): the
outcome of `client.login()`, the device list returned by
`client.get_devices(include_long_id=True)`, and the success of each
coordinator's `async_config_entry_first_refresh` by position in the device
list.  Exceptions are embedded with `Except`; because statement effects on
`hass.data` persist when an exception propagates, the setup function returns
the final state alongside the `Except` outcome.
-/

namespace Aquarea

/-- Association-list lookup with Python `dict` semantics. -/
def dlookup {α : Type} : List (String × α) → String → Option α
  | [], _ => none
  | (k, v) :: rest, key => if k = key then some v else dlookup rest key

/-- Association-list store with Python `dict` semantics: replace in place
when the key is present, append otherwise. -/
def dinsert {α : Type} : List (String × α) → String → α → List (String × α)
  | [], key, v => [(key, v)]
  | (k, w) :: rest, key, v =>
      if k = key then (k, v) :: rest else (k, w) :: dinsert rest key v

/-- Association-list removal, the effect of Python's `dict.pop` on a present
key. -/
def derase {α : Type} : List (String × α) → String → List (String × α)
  | [], _ => []
  | (k, w) :: rest, key => if k = key then rest else (k, w) :: derase rest key

/-- `DOMAIN` from `const.py` (the file is not in src; the literal value is
immaterial to every statement below, only its identity as a key is used). -/
def DOMAIN : String := "aquarea"

/-- A configuration entry: host-provided record with a unique id and the
credentials read via `CONF_USERNAME` / `CONF_PASSWORD` (`entry.data.get`
returns `None` when absent, hence `Option`). -/
structure ConfigEntry where
  entry_id : String
  username : Option String
  password : Option String
deriving DecidableEq, Repr

/-- A vendor device descriptor as used by this module: `device_id`, `name`,
`manufacturer`, `version`. -/
structure Device where
  device_id : String
  name : String
  manufacturer : String
  version : String
deriving DecidableEq, Repr

/-- An `aioaquarea.Client` instance.  `clientId` embeds Python object
identity: each evaluation of `aioaquarea.Client(session, username, password)`
yields a fresh identity, drawn from a counter in the state. -/
structure Client where
  clientId : Nat
  username : Option String
  password : Option String
deriving DecidableEq, Repr

/-- Modelled from the spec: `AquareaDataUpdateCoordinator` lives in
`coordinator.py`, which is not in src.  Per the spec's data model a
coordinator "owns a reference to the client and device descriptor"; its
`device` attribute is the descriptor passed at construction
(`device_info=device` at the call site in `async_setup_entry`). -/
structure AquareaDataUpdateCoordinator where
  client : Client
  device : Device
deriving DecidableEq, Repr

/-- The per-entry slot `hass.data[DOMAIN][entry_id]`: the `CLIENT` key and
the `DEVICES` mapping from device id to coordinator. -/
structure EntryData where
  client : Option Client
  devices : List (String × AquareaDataUpdateCoordinator)
deriving DecidableEq, Repr

/-- The process-wide state this module touches: `hass.data[DOMAIN]` (keyed
by entry id), the set of entries forwarded to the platforms (the effect of
`async_forward_entry_setups`), and the counter supplying fresh client
identities. -/
structure HassData where
  entries : List (String × EntryData)
  forwarded : List String
  nextClientId : Nat
deriving DecidableEq, Repr

/-- `aioaquarea.AuthenticationErrorCodes`: the two codes this module
distinguishes, plus every other code. -/
inductive AuthenticationErrorCode where
  | INVALID_USERNAME_OR_PASSWORD
  | INVALID_CREDENTIALS
  | otherCode (s : String)
deriving DecidableEq, Repr

/-- Outcome of `await client.login()`. -/
inductive LoginResult where
  | success
  | authError (code : AuthenticationErrorCode)
deriving DecidableEq, Repr

/-- Oracle for the external collaborators during one `async_setup_entry`
call: the login outcome, the discovered devices, and whether the first
refresh of the coordinator created for the k-th device succeeds. -/
structure SetupEnv where
  login : LoginResult
  get_devices : List Device
  refreshOk : Nat → Bool

/-- Exceptions `async_setup_entry` can raise in this embedding:
`ConfigEntryAuthFailed`, or the (non-`AuthenticationError`) exception
propagated by `async_config_entry_first_refresh` of the k-th coordinator. -/
inductive SetupExc where
  | configEntryAuthFailed
  | firstRefreshFailed (k : Nat)
deriving DecidableEq, Repr

/-- `initialize_data`: create the entry's slot `{CLIENT: None, DEVICES: {}}`
when absent (the outer `hass.data[DOMAIN]` dict is the `entries` field
itself). -/
def initialize_data (hass : HassData) (entry : ConfigEntry) : HassData :=
  match dlookup hass.entries entry.entry_id with
  | some _ => hass
  | none =>
      { hass with entries := dinsert hass.entries entry.entry_id ⟨none, []⟩ }

/-- The client block of `async_setup_entry`: reuse the cached client, or
create `aioaquarea.Client(session, username, password)` and store it. -/
def ensureClient (hass : HassData) (entry : ConfigEntry) : HassData × Client :=
  let entryData := (dlookup hass.entries entry.entry_id).getD ⟨none, []⟩
  match entryData.client with
  | some c => (hass, c)
  | none =>
      let c : Client := ⟨hass.nextClientId, entry.username, entry.password⟩
      ({ hass with
          entries :=
            dinsert hass.entries entry.entry_id { entryData with client := some c },
          nextClientId := hass.nextClientId + 1 }, c)

/-- The device loop of `async_setup_entry`: for each device in order, create
a coordinator, store it under `device.device_id` in the `DEVICES` dict, then
run its first refresh; stop with the failing index when a refresh raises.
Returns the `DEVICES` dict as left when the loop ends and the index of the
failed refresh, if any. -/
def setupDevices (client : Client) (refreshOk : Nat → Bool) :
    List Device → Nat → List (String × AquareaDataUpdateCoordinator) →
      List (String × AquareaDataUpdateCoordinator) × Option Nat
  | [], _, acc => (acc, none)
  | dev :: rest, k, acc =>
      let acc := dinsert acc dev.device_id ⟨client, dev⟩
      if refreshOk k then setupDevices client refreshOk rest (k + 1) acc
      else (acc, some k)

/-- The `try`/`except` body of `async_setup_entry`.  An
`aioaquarea.AuthenticationError` is caught; only the two listed codes
re-raise (as `ConfigEntryAuthFailed`), any other code falls through to
`return True`.  A first-refresh failure is not an `AuthenticationError` and
propagates. -/
def runSetupBody (env : SetupEnv) (client : Client) (hass : HassData)
    (entry : ConfigEntry) : HassData × Except SetupExc Bool :=
  match env.login with
  | .authError code =>
      if code = .INVALID_USERNAME_OR_PASSWORD ∨ code = .INVALID_CREDENTIALS then
        (hass, .error .configEntryAuthFailed)
      else
        (hass, .ok true)
  | .success =>
      let entryData := (dlookup hass.entries entry.entry_id).getD ⟨none, []⟩
      let (devs, failed) :=
        setupDevices client env.refreshOk env.get_devices 0 entryData.devices
      let hass :=
        { hass with
            entries :=
              dinsert hass.entries entry.entry_id { entryData with devices := devs } }
      match failed with
      | some k => (hass, .error (.firstRefreshFailed k))
      | none => ({ hass with forwarded := entry.entry_id :: hass.forwarded }, .ok true)

/-- `async_setup_entry`: ensure the slot, reuse or create the client, then
run the login / discovery / coordinator / forwarding body. -/
def async_setup_entry (env : SetupEnv) (hass : HassData) (entry : ConfigEntry) :
    HassData × Except SetupExc Bool :=
  let hass := initialize_data hass entry
  let p := ensureClient hass entry
  runSetupBody env p.2 p.1 entry

/-- `async_unload_entry`: ask the host to unload the platforms (outcome
`unload_ok` is the oracle input); on success pop the entry's slot (`pop`
raises `KeyError`, embedded as `.error ()`, when the key is absent); return
`unload_ok`. -/
def async_unload_entry (unload_ok : Bool) (hass : HassData)
    (entry : ConfigEntry) : Except Unit (HassData × Bool) :=
  if unload_ok then
    match dlookup hass.entries entry.entry_id with
    | some _ => .ok ({ hass with entries := derase hass.entries entry.entry_id }, unload_ok)
    | none => .error ()
  else
    .ok (hass, unload_ok)

/-- A host device-registry entry as read by `async_migrate_entry`: its id,
the config entry it belongs to, and its `(domain, guid)` identifiers. -/
structure DeviceRegistryEntry where
  id : String
  config_entry_id : String
  identifiers : List (String × String)
deriving DecidableEq, Repr

/-- A host entity-registry entry as read by `async_migrate_entry`: the
config entry it belongs to and its (possibly absent) device id. -/
structure EntityRegistryEntry where
  config_entry_id : String
  device_id : Option String
deriving DecidableEq, Repr

/-- The host's device and entity registries. -/
structure Registries where
  dev_reg : List DeviceRegistryEntry
  ent_reg : List EntityRegistryEntry
deriving DecidableEq, Repr

/-- `async_migrate_entry`: read both registries, filter entries of this
config entry, and for each entity whose device is found compute
`device_guid` = the second component of the first identifier whose first
component is `DOMAIN`; the computed values are discarded and the function
returns `False` unconditionally.  No registry write is performed, so the
registries are returned unchanged. -/
def async_migrate_entry (regs : Registries) (config_entry : ConfigEntry) :
    Registries × Bool :=
  let devices := regs.dev_reg.filter (fun d => d.config_entry_id = config_entry.entry_id)
  let entities := regs.ent_reg.filter (fun e => e.config_entry_id = config_entry.entry_id)
  let _ := entities.map (fun entity =>
    (devices.find? (fun device => some device.id = entity.device_id)).map
      (fun device =>
        ((device.identifiers.find? (fun p => p.1 = DOMAIN)).map Prod.snd)))
  (regs, false)

/-- `DeviceInfo` as populated by `AquareaBaseEntity.__init__`. -/
structure DeviceInfo where
  identifiers : List (String × String)
  manufacturer : String
  model : String
  name : String
  sw_version : String
deriving DecidableEq, Repr

/-- The attribute state an `AquareaBaseEntity` holds after construction. -/
structure AquareaBaseEntity where
  attrs : List (String × String)
  attr_unique_id : String
  attr_name : String
  attr_device_info : DeviceInfo
deriving DecidableEq, Repr

/-- `AquareaBaseEntity.__init__`: derive the static attributes from the
coordinator's device descriptor. -/
def AquareaBaseEntity.init (coordinator : AquareaDataUpdateCoordinator) :
    AquareaBaseEntity :=
  { attrs := [("name", coordinator.device.name), ("id", coordinator.device.device_id)],
    attr_unique_id := coordinator.device.device_id,
    attr_name := coordinator.device.name,
    attr_device_info :=
      { identifiers := [(DOMAIN, coordinator.device.device_id)],
        manufacturer := coordinator.device.manufacturer,
        model := "",
        name := coordinator.device.name,
        sw_version := coordinator.device.version } }

/-- The observable calls `AquareaBaseEntity.async_added_to_hass` makes, in
order. -/
inductive EntityLifecycleEvent where
  | superAddedToHass
  | handleCoordinatorUpdate
deriving DecidableEq, Repr

/-- `AquareaBaseEntity.async_added_to_hass`: await the superclass attach
step, then invoke `_handle_coordinator_update` once. -/
def async_added_to_hass : List EntityLifecycleEvent :=
  [.superAddedToHass, .handleCoordinatorUpdate]

/-- The client cached in the entry's slot, when present. -/
def clientOf (hass : HassData) (eid : String) : Option Client :=
  match dlookup hass.entries eid with
  | some d => d.client
  | none => none

/-- The `DEVICES` mapping of the entry's slot (empty when the slot is
absent). -/
def devicesOf (hass : HassData) (eid : String) :
    List (String × AquareaDataUpdateCoordinator) :=
  match dlookup hass.entries eid with
  | some d => d.devices
  | none => []

/-! ### Association-list lemmas -/

theorem dlookup_dinsert_self {α : Type} (d : List (String × α)) (k : String) (v : α) :
    dlookup (dinsert d k v) k = some v := by
  induction d with
  | nil => simp [dinsert, dlookup]
  | cons p rest ih =>
      by_cases h : p.1 = k
      · simp [dinsert, dlookup, h]
      · simp [dinsert, dlookup, h, ih]

theorem dlookup_dinsert_ne {α : Type} (d : List (String × α)) (k key : String) (v : α)
    (h : k ≠ key) : dlookup (dinsert d k v) key = dlookup d key := by
  induction d with
  | nil => simp [dinsert, dlookup, h]
  | cons p rest ih =>
      by_cases hp : p.1 = k
      · simp [dinsert, dlookup, hp, h]
      · simp only [dinsert, hp, if_false]
        by_cases hq : p.1 = key
        · simp [dlookup, hq]
        · simp [dlookup, hq, ih]

theorem dinsert_eq_append {α : Type} (d : List (String × α)) (k : String) (v : α)
    (h : dlookup d k = none) : dinsert d k v = d ++ [(k, v)] := by
  induction d with
  | nil => simp [dinsert]
  | cons p rest ih =>
      by_cases hp : p.1 = k
      · simp [dlookup, hp] at h
      · simp only [dlookup, hp, if_false] at h
        simp [dinsert, hp, ih h]

theorem dlookup_append_of_none {α : Type} (a b : List (String × α)) (k : String)
    (h : dlookup a k = none) : dlookup (a ++ b) k = dlookup b k := by
  induction a with
  | nil => simp
  | cons p rest ih =>
      by_cases hp : p.1 = k
      · simp [dlookup, hp] at h
      · simp only [dlookup, hp, if_false] at h
        simpa [dlookup, hp] using ih h

theorem dlookup_eq_none_of_not_mem_keys {α : Type} (d : List (String × α)) (k : String)
    (h : k ∉ d.map Prod.fst) : dlookup d k = none := by
  induction d with
  | nil => rfl
  | cons p rest ih =>
      simp only [List.map_cons, List.mem_cons] at h
      push_neg at h
      have hne : ¬p.1 = k := fun hp => h.1 hp.symm
      simp [dlookup, hne, ih h.2]

theorem dlookup_derase_self {α : Type} (d : List (String × α)) (k : String)
    (hnodup : (d.map Prod.fst).Nodup) : dlookup (derase d k) k = none := by
  induction d with
  | nil => rfl
  | cons p rest ih =>
      simp only [List.map_cons, List.nodup_cons] at hnodup
      by_cases hp : p.1 = k
      · simpa [derase, hp] using dlookup_eq_none_of_not_mem_keys rest k (hp ▸ hnodup.1)
      · simp [derase, hp, dlookup, ih hnodup.2]

/-! ### Device-loop lemmas -/

theorem setupDevices_all_ok (client : Client) (r : Nat → Bool)
    (devs : List Device) (n : Nat) (acc : List (String × AquareaDataUpdateCoordinator))
    (hr : ∀ j, r j = true) :
    setupDevices client r devs n acc =
      (devs.foldl (fun d dev => dinsert d dev.device_id ⟨client, dev⟩) acc, none) := by
  induction devs generalizing n acc with
  | nil => rfl
  | cons dev rest ih => simp [setupDevices, hr n, ih]

theorem foldl_dinsert_fresh (client : Client) (devs : List Device)
    (acc : List (String × AquareaDataUpdateCoordinator))
    (hnodup : (devs.map Device.device_id).Nodup)
    (hfresh : ∀ dev ∈ devs, dlookup acc dev.device_id = none) :
    devs.foldl (fun d dev => dinsert d dev.device_id ⟨client, dev⟩) acc =
      acc ++ devs.map
        (fun dev => (dev.device_id, (⟨client, dev⟩ : AquareaDataUpdateCoordinator))) := by
  induction devs generalizing acc with
  | nil => simp
  | cons dev rest ih =>
      simp only [List.map_cons, List.nodup_cons] at hnodup
      have h0 : dlookup acc dev.device_id = none := hfresh dev (List.mem_cons_self _ _)
      have ihr := ih
        (acc ++ [(dev.device_id, (⟨client, dev⟩ : AquareaDataUpdateCoordinator))])
        hnodup.2
        (by
          intro d hd
          have h1 : dlookup acc d.device_id = none := hfresh d (List.mem_cons_of_mem _ hd)
          have h2 : ¬dev.device_id = d.device_id := fun he =>
            hnodup.1 (he ▸ List.mem_map_of_mem Device.device_id hd)
          rw [dlookup_append_of_none _ _ _ h1]
          simp [dlookup, h2])
      rw [List.foldl_cons, dinsert_eq_append _ _ _ h0, ihr]
      simp

theorem setupDevices_fails_at (client : Client) (r : Nat → Bool)
    (devs : List Device) (n k : Nat)
    (acc : List (String × AquareaDataUpdateCoordinator))
    (hbefore : ∀ j, j < k → r (n + j) = true)
    (hfail : r (n + k) = false)
    (hk : k < devs.length) :
    setupDevices client r devs n acc =
      ((devs.take (k + 1)).foldl (fun d dev => dinsert d dev.device_id ⟨client, dev⟩) acc,
        some (n + k)) := by
  induction devs generalizing n k acc with
  | nil => simp at hk
  | cons dev rest ih =>
      cases k with
      | zero =>
          have h0 : r n = false := by simpa using hfail
          simp [setupDevices, h0]
      | succ k' =>
          have h0 : r n = true := by simpa using hbefore 0 (Nat.succ_pos _)
          have hrec := ih (n + 1) k' (dinsert acc dev.device_id ⟨client, dev⟩)
            (fun j hj => by
              have he : n + 1 + j = n + (j + 1) := by omega
              rw [he]
              exact hbefore (j + 1) (Nat.succ_lt_succ hj))
            (by
              have he : n + 1 + k' = n + (k' + 1) := by omega
              rw [he]; exact hfail)
            (Nat.lt_of_succ_lt_succ hk)
          have hn : n + 1 + k' = n + (k' + 1) := by omega
          simp [setupDevices, h0, hrec, hn]

/-! ### Claim theorems -/

/-- C2: with login failing with `INVALID_CREDENTIALS` (or
`INVALID_USERNAME_OR_PASSWORD`), `async_setup_entry` raises
`ConfigEntryAuthFailed` and the entry's `DEVICES` mapping stays empty. -/
theorem setup_invalid_credentials_auth_failed (env : SetupEnv) (hass : HassData)
    (entry : ConfigEntry)
    (hfresh : dlookup hass.entries entry.entry_id = none)
    (hlogin : env.login = .authError .INVALID_CREDENTIALS ∨
      env.login = .authError .INVALID_USERNAME_OR_PASSWORD) :
    (async_setup_entry env hass entry).2 = .error .configEntryAuthFailed
    ∧ devicesOf (async_setup_entry env hass entry).1 entry.entry_id = [] := by
  unfold async_setup_entry initialize_data ensureClient runSetupBody devicesOf
  rcases hlogin with h | h <;>
    simp [hfresh, h, dlookup_dinsert_self]

/-- Witness for `setup_invalid_credentials_auth_failed` at a concrete
input. -/
theorem setup_invalid_credentials_auth_failed_witness :
    (async_setup_entry ⟨.authError .INVALID_CREDENTIALS, [⟨"d1", "n", "m", "v"⟩], fun _ => true⟩
        ⟨[], [], 0⟩ ⟨"entry-a", some "u", some "p"⟩).2 = .error .configEntryAuthFailed
    ∧ devicesOf (async_setup_entry
        ⟨.authError .INVALID_CREDENTIALS, [⟨"d1", "n", "m", "v"⟩], fun _ => true⟩
        ⟨[], [], 0⟩ ⟨"entry-a", some "u", some "p"⟩).1 "entry-a" = [] :=
  setup_invalid_credentials_auth_failed _ _ _ rfl (Or.inl rfl)

/-- C3: after a successful setup of a fresh entry (login succeeds, every
first refresh succeeds, device ids are distinct), the entry's `DEVICES`
mapping holds one coordinator per discovered device and every coordinator is
keyed by the `device_id` of the descriptor it wraps. -/
theorem setup_success_one_coordinator_per_device (env : SetupEnv) (hass : HassData)
    (entry : ConfigEntry)
    (hfresh : dlookup hass.entries entry.entry_id = none)
    (hlogin : env.login = .success)
    (hrefresh : ∀ j, env.refreshOk j = true)
    (hnodup : (env.get_devices.map Device.device_id).Nodup) :
    (async_setup_entry env hass entry).2 = .ok true
    ∧ (devicesOf (async_setup_entry env hass entry).1 entry.entry_id).length
        = env.get_devices.length
    ∧ ∀ p ∈ devicesOf (async_setup_entry env hass entry).1 entry.entry_id,
        p.2.device.device_id = p.1 := by
  have hall : ∀ (c : Client) (acc : List (String × AquareaDataUpdateCoordinator)),
      setupDevices c env.refreshOk env.get_devices 0 acc =
        (env.get_devices.foldl (fun d dev => dinsert d dev.device_id ⟨c, dev⟩) acc, none) :=
    fun c acc => setupDevices_all_ok c env.refreshOk env.get_devices 0 acc hrefresh
  have hfold : ∀ c : Client,
      env.get_devices.foldl (fun d dev => dinsert d dev.device_id ⟨c, dev⟩) [] =
        env.get_devices.map
          (fun dev => (dev.device_id, (⟨c, dev⟩ : AquareaDataUpdateCoordinator))) := by
    intro c
    simpa using foldl_dinsert_fresh c env.get_devices [] hnodup (fun d _ => rfl)
  unfold async_setup_entry initialize_data ensureClient runSetupBody devicesOf
  simp only [hfresh, hlogin]
  simp only [dlookup_dinsert_self, Option.getD_some, hall, hfold]
  refine ⟨trivial, by simp, ?_⟩
  intro p hp
  simp only [List.mem_map] at hp
  obtain ⟨dev, _, rfl⟩ := hp
  rfl

/-- Witness for `setup_success_one_coordinator_per_device` at a concrete
input with two devices. -/
theorem setup_success_one_coordinator_per_device_witness :
    (async_setup_entry
        ⟨.success, [⟨"d1", "n1", "m", "v"⟩, ⟨"d2", "n2", "m", "v"⟩], fun _ => true⟩
        ⟨[], [], 0⟩ ⟨"entry-b", some "u", some "p"⟩).2 = .ok true
    ∧ (devicesOf (async_setup_entry
        ⟨.success, [⟨"d1", "n1", "m", "v"⟩, ⟨"d2", "n2", "m", "v"⟩], fun _ => true⟩
        ⟨[], [], 0⟩ ⟨"entry-b", some "u", some "p"⟩).1 "entry-b").length = 2
    ∧ ∀ p ∈ devicesOf (async_setup_entry
        ⟨.success, [⟨"d1", "n1", "m", "v"⟩, ⟨"d2", "n2", "m", "v"⟩], fun _ => true⟩
        ⟨[], [], 0⟩ ⟨"entry-b", some "u", some "p"⟩).1 "entry-b",
        p.2.device.device_id = p.1 :=
  setup_success_one_coordinator_per_device _ _ _ rfl rfl (fun _ => rfl) (by decide)

/-- C1 counterexample: with an authentication error whose code is neither
`INVALID_USERNAME_OR_PASSWORD` nor `INVALID_CREDENTIALS`, the `except`
clause catches the error, the `if` re-raises nothing, and
`async_setup_entry` returns success — the error is not propagated. -/
theorem setup_other_auth_error_counterexample :
    (async_setup_entry ⟨.authError (.otherCode "1001-OTHER"), [], fun _ => true⟩
        ⟨[], [], 0⟩ ⟨"entry-c", some "u", some "p"⟩).2 = .ok true := by
  rfl

/-- C1 (amended): an authentication error with any other code is caught and
swallowed by the `except aioaquarea.AuthenticationError` clause, and
`async_setup_entry` returns success (`True`). -/
theorem setup_other_auth_error_swallowed (env : SetupEnv) (hass : HassData)
    (entry : ConfigEntry) (code : AuthenticationErrorCode)
    (hlogin : env.login = .authError code)
    (h1 : code ≠ .INVALID_USERNAME_OR_PASSWORD)
    (h2 : code ≠ .INVALID_CREDENTIALS) :
    (async_setup_entry env hass entry).2 = .ok true := by
  unfold async_setup_entry runSetupBody
  simp [hlogin, h1, h2]

/-- Witness for `setup_other_auth_error_swallowed` at a concrete input. -/
theorem setup_other_auth_error_swallowed_witness :
    (async_setup_entry ⟨.authError (.otherCode "1007"), [⟨"d", "n", "m", "v"⟩], fun _ => true⟩
        ⟨[], [], 5⟩ ⟨"entry-d", some "u", some "p"⟩).2 = .ok true :=
  setup_other_auth_error_swallowed _ _ _ (.otherCode "1007") rfl (by decide) (by decide)

/-- C4: `async_unload_entry` returns the host's unload result; on success it
drops the entry's slot (the entry id no longer resolves in the registry), on
failure it leaves the registry unchanged. -/
theorem unload_drops_slot_iff_success (u : Bool) (hass : HassData) (entry : ConfigEntry)
    (hnodup : (hass.entries.map Prod.fst).Nodup)
    (hmem : (dlookup hass.entries entry.entry_id).isSome) :
    ∃ h' : HassData, async_unload_entry u hass entry = .ok (h', u)
      ∧ (u = true → dlookup h'.entries entry.entry_id = none)
      ∧ (u = false → h' = hass) := by
  cases u with
  | false => exact ⟨hass, rfl, by simp, fun _ => rfl⟩
  | true =>
      obtain ⟨d, hd⟩ := Option.isSome_iff_exists.mp hmem
      refine ⟨{ hass with entries := derase hass.entries entry.entry_id }, ?_, ?_, ?_⟩
      · unfold async_unload_entry
        simp [hd]
      · exact fun _ => dlookup_derase_self _ _ hnodup
      · simp

/-- Witness for `unload_drops_slot_iff_success` at a concrete input. -/
theorem unload_drops_slot_iff_success_witness :
    ∃ h' : HassData,
      async_unload_entry true ⟨[("entry-e", ⟨none, []⟩)], [], 0⟩ ⟨"entry-e", none, none⟩
          = .ok (h', true)
      ∧ (true = true → dlookup h'.entries "entry-e" = none)
      ∧ (true = false → h' = ⟨[("entry-e", ⟨none, []⟩)], [], 0⟩) :=
  unload_drops_slot_iff_success true _ _ (by decide) (by decide)

/-! ### Client-caching lemmas -/

theorem async_setup_entry_eq (env : SetupEnv) (hass : HassData) (entry : ConfigEntry) :
    async_setup_entry env hass entry =
      runSetupBody env (ensureClient (initialize_data hass entry) entry).2
        (ensureClient (initialize_data hass entry) entry).1 entry := rfl

theorem runSetupBody_client_eq (env : SetupEnv) (client : Client) (hass : HassData)
    (entry : ConfigEntry) (d : EntryData)
    (hd : dlookup hass.entries entry.entry_id = some d) :
    clientOf (runSetupBody env client hass entry).1 entry.entry_id = d.client
    ∧ (runSetupBody env client hass entry).1.nextClientId = hass.nextClientId := by
  unfold runSetupBody clientOf
  cases env.login with
  | authError code =>
      by_cases hcode : code = .INVALID_USERNAME_OR_PASSWORD ∨ code = .INVALID_CREDENTIALS <;>
        simp [hcode, hd]
  | success =>
      simp only [hd, Option.getD_some]
      cases hsd : setupDevices client env.refreshOk env.get_devices 0 d.devices with
      | mk devs failed =>
          cases failed <;> simp [hsd, dlookup_dinsert_self]

theorem ensureClient_lookup (hass : HassData) (entry : ConfigEntry) (d : EntryData)
    (hd : dlookup hass.entries entry.entry_id = some d) :
    dlookup (ensureClient hass entry).1.entries entry.entry_id
      = some { d with client := some (ensureClient hass entry).2 } := by
  unfold ensureClient
  simp only [hd, Option.getD_some]
  cases hc : d.client with
  | some c =>
      have hde : { d with client := some c } = d := by
        cases d
        simp only [EntryData.mk.injEq] at hc ⊢
        exact ⟨hc.symm, trivial⟩
      simp [hde, hd]
  | none => simp [dlookup_dinsert_self]

theorem ensureClient_of_some (hass : HassData) (entry : ConfigEntry) (d : EntryData)
    (c : Client) (hd : dlookup hass.entries entry.entry_id = some d)
    (hc : d.client = some c) :
    ensureClient hass entry = (hass, c) := by
  unfold ensureClient
  simp [hd, hc]

theorem setup_client_some (env : SetupEnv) (hass : HassData) (entry : ConfigEntry) :
    ∃ c, clientOf (async_setup_entry env hass entry).1 entry.entry_id = some c := by
  have hslot : ∃ d, dlookup (initialize_data hass entry).entries entry.entry_id = some d := by
    unfold initialize_data
    cases hd : dlookup hass.entries entry.entry_id with
    | some d => exact ⟨d, by simp [hd]⟩
    | none => exact ⟨⟨none, []⟩, by simp [hd, dlookup_dinsert_self]⟩
  obtain ⟨d, hd⟩ := hslot
  have hens := ensureClient_lookup (initialize_data hass entry) entry d hd
  have hbody := runSetupBody_client_eq env
    (ensureClient (initialize_data hass entry) entry).2
    (ensureClient (initialize_data hass entry) entry).1 entry _ hens
  rw [async_setup_entry_eq]
  exact ⟨_, hbody.1⟩

theorem setup_preserves_existing_client (env : SetupEnv) (hass : HassData)
    (entry : ConfigEntry) (c : Client)
    (hc : clientOf hass entry.entry_id = some c) :
    clientOf (async_setup_entry env hass entry).1 entry.entry_id = some c
    ∧ (async_setup_entry env hass entry).1.nextClientId = hass.nextClientId := by
  unfold clientOf at hc
  cases hd : dlookup hass.entries entry.entry_id with
  | none => simp [hd] at hc
  | some d =>
      simp only [hd] at hc
      have hinit : initialize_data hass entry = hass := by
        unfold initialize_data
        simp [hd]
      have hens : ensureClient hass entry = (hass, c) :=
        ensureClient_of_some hass entry d c hd hc
      rw [async_setup_entry_eq, hinit, hens]
      have hbody := runSetupBody_client_eq env c hass entry d hd
      exact ⟨hbody.1.trans hc, hbody.2⟩

/-- C5: a second `async_setup_entry` call without an intervening unload
reuses the cached client: the stored client instance is unchanged and no new
client identity is drawn. -/
theorem setup_twice_reuses_client (env envSecond : SetupEnv) (hass : HassData)
    (entry : ConfigEntry) :
    (clientOf (async_setup_entry env hass entry).1 entry.entry_id).isSome
    ∧ clientOf (async_setup_entry envSecond (async_setup_entry env hass entry).1 entry).1
        entry.entry_id
      = clientOf (async_setup_entry env hass entry).1 entry.entry_id
    ∧ (async_setup_entry envSecond (async_setup_entry env hass entry).1 entry).1.nextClientId
      = (async_setup_entry env hass entry).1.nextClientId := by
  obtain ⟨c, hc⟩ := setup_client_some env hass entry
  obtain ⟨h1, h2⟩ := setup_preserves_existing_client envSecond _ entry c hc
  exact ⟨by simp [hc], by rw [h1, hc], h2⟩

/-- C6: `async_migrate_entry` unconditionally reports failure: the device
identifiers it computes are discarded and `False` is returned for every
input. -/
theorem migrate_always_fails (regs : Registries) (entry : ConfigEntry) :
    (async_migrate_entry regs entry).2 = false := rfl

/-- C7: the base entity adapter derives its unique id, name, manufacturer
and firmware version exactly from the coordinator's device descriptor. -/
theorem base_entity_attrs_from_device (c : AquareaDataUpdateCoordinator) :
    (AquareaBaseEntity.init c).attr_unique_id = c.device.device_id
    ∧ (AquareaBaseEntity.init c).attr_device_info.manufacturer = c.device.manufacturer
    ∧ (AquareaBaseEntity.init c).attr_name = c.device.name
    ∧ (AquareaBaseEntity.init c).attr_device_info.sw_version = c.device.version :=
  ⟨rfl, rfl, rfl, rfl⟩

/-- C8: `async_migrate_entry` only reads the host registries: the device and
entity registries it is given are returned unchanged for every input. -/
theorem migrate_preserves_registries (regs : Registries) (entry : ConfigEntry) :
    (async_migrate_entry regs entry).1 = regs := rfl

/-- C9: `async_added_to_hass` invokes the coordinator-update handler exactly
once, immediately after the superclass attach step. -/
theorem added_to_hass_refreshes_once :
    async_added_to_hass.count .handleCoordinatorUpdate = 1
    ∧ async_added_to_hass = [.superAddedToHass, .handleCoordinatorUpdate] := by
  constructor <;> rfl

/-- C10: setup is not atomic across per-device first refreshes: each
coordinator is stored in the entry's `DEVICES` dict before its refresh runs,
so when the refresh of the k-th device raises, the coordinators for devices
0..k are all registered while the exception propagates, and platform
forwarding never happens. -/
theorem setup_partial_registration_on_refresh_failure (env : SetupEnv) (hass : HassData)
    (entry : ConfigEntry) (k : Nat)
    (hfresh : dlookup hass.entries entry.entry_id = none)
    (hlogin : env.login = .success)
    (hnodup : (env.get_devices.map Device.device_id).Nodup)
    (hbefore : ∀ j, j < k → env.refreshOk j = true)
    (hfail : env.refreshOk k = false)
    (hk : k < env.get_devices.length) :
    (async_setup_entry env hass entry).2 = .error (.firstRefreshFailed k)
    ∧ devicesOf (async_setup_entry env hass entry).1 entry.entry_id
        = (env.get_devices.take (k + 1)).map
            (fun dev => (dev.device_id,
              (⟨⟨hass.nextClientId, entry.username, entry.password⟩, dev⟩ :
                AquareaDataUpdateCoordinator)))
    ∧ (async_setup_entry env hass entry).1.forwarded = hass.forwarded := by
  have hfaileq : ∀ (c : Client) (acc : List (String × AquareaDataUpdateCoordinator)),
      setupDevices c env.refreshOk env.get_devices 0 acc =
        ((env.get_devices.take (k + 1)).foldl
          (fun d dev => dinsert d dev.device_id ⟨c, dev⟩) acc, some k) := by
    intro c acc
    have h := setupDevices_fails_at c env.refreshOk env.get_devices 0 k acc
      (fun j hj => by simpa using hbefore j hj) (by simpa using hfail) hk
    simpa using h
  have hnodup' : ((env.get_devices.take (k + 1)).map Device.device_id).Nodup := by
    rw [List.map_take]
    exact (List.take_sublist _ _).nodup hnodup
  have hfold : ∀ c : Client,
      (env.get_devices.take (k + 1)).foldl
          (fun d dev => dinsert d dev.device_id ⟨c, dev⟩) [] =
        (env.get_devices.take (k + 1)).map
          (fun dev => (dev.device_id, (⟨c, dev⟩ : AquareaDataUpdateCoordinator))) := by
    intro c
    simpa using foldl_dinsert_fresh c _ [] hnodup' (fun d _ => rfl)
  unfold async_setup_entry initialize_data ensureClient runSetupBody devicesOf
  simp only [hfresh, hlogin]
  simp only [dlookup_dinsert_self, Option.getD_some, hfaileq, hfold]
  exact ⟨trivial, trivial, trivial⟩

/-- Witness for `setup_partial_registration_on_refresh_failure`: two
devices, the refresh of the second (index 1) fails. -/
theorem setup_partial_registration_on_refresh_failure_witness :
    (async_setup_entry
        ⟨.success, [⟨"d1", "n1", "m", "v"⟩, ⟨"d2", "n2", "m", "v"⟩], fun j => j == 0⟩
        ⟨[], [], 3⟩ ⟨"entry-f", some "u", some "p"⟩).2 = .error (.firstRefreshFailed 1)
    ∧ devicesOf (async_setup_entry
        ⟨.success, [⟨"d1", "n1", "m", "v"⟩, ⟨"d2", "n2", "m", "v"⟩], fun j => j == 0⟩
        ⟨[], [], 3⟩ ⟨"entry-f", some "u", some "p"⟩).1 "entry-f"
        = ([⟨"d1", "n1", "m", "v"⟩, ⟨"d2", "n2", "m", "v"⟩].take (1 + 1)).map
            (fun dev => (dev.device_id,
              (⟨⟨3, some "u", some "p"⟩, dev⟩ : AquareaDataUpdateCoordinator)))
    ∧ (async_setup_entry
        ⟨.success, [⟨"d1", "n1", "m", "v"⟩, ⟨"d2", "n2", "m", "v"⟩], fun j => j == 0⟩
        ⟨[], [], 3⟩ ⟨"entry-f", some "u", some "p"⟩).1.forwarded = [] :=
  setup_partial_registration_on_refresh_failure _ _ _ 1 rfl rfl (by decide)
    (fun j hj => by
      have hj0 : j = 0 := Nat.lt_one_iff.mp hj
      subst hj0; rfl)
    rfl (by decide)

end Aquarea
